import Mathlib

/-!
Verification of the lingvo car input-pipeline / geometry / detection spec.

The development shallowly embeds, over `ℚ` and `List`s:

* the bucketed record router and the dynamic-padding batch flush of the
  GenericInput op (the op itself lives outside the repository snapshot, so
  those two definitions are modelled from the spec);
* `lingvo/tasks/car/base_extractor.py` (bucket upper bound wiring);
* `lingvo/tasks/car/geometry.py` (bbox conversions, point-in-bbox tests,
  3-D corners, coordinate and spherical transforms);
* `lingvo/tasks/car/point_detector.py` (score masking in `Decode` and
  `Inference`, `DecodeFinalize`);
* the per-pixel-pose branch of `_XYZFromRangeImage` in
  `lingvo/tasks/car/waymo/waymo_open_input_generator.py`.

Trigonometric and other transcendental machine functions (`tf.cos`,
`tf.sin`, `tf.sqrt`, `tf.acos`, `tf.atan2`) are kept abstract: the
embedded definitions take them as explicit function arguments, so every
definition stays computable and the theorems quantify over the
interpretation of the transcendental functions.
-/

namespace Lingvo

/-! ## GenericInput bucket routing (modelled from the spec)

The GenericInput op is implemented outside the repository snapshot
(`lingvo/core/ops`); only its tests and callers are present.  The routing
rule below is modelled from the spec. -/

/-- Modelled from the spec: the GenericInput op's record-to-bucket routing
(the op's implementation is not in the snapshot; only
`generic_input_op_test.py` and callers are).  Spec: `key <= 0` drops the
record; otherwise the record goes to the smallest configured bucket whose
upper bound is `>= key`; if no bucket upper bound accommodates it, the
record is dropped.  `none` means the record is dropped and never appears
in any output batch; `some i` means it is routed to bucket index `i`. -/
def routeBucket (key : Int) (bucket_upper_bound : List Int) : Option Nat :=
  if key ≤ 0 then none
  else bucket_upper_bound.findIdx? (fun b => key ≤ b)

/-- From `base_extractor.py`: items exceeding this value are dropped and
not sent to the trainer. -/
def BUCKET_UPPER_BOUND : Int := 9999

/-- From `_BaseExtractor._DataSourceFromFilePattern`: the extractor layer
passes `bucket_upper_bound = [BUCKET_UPPER_BOUND - 1]` to GenericInput. -/
def extractorBucketUpperBound : List Int := [BUCKET_UPPER_BOUND - 1]

/-! ## GenericInput dynamic padding (modelled from the spec) -/

/-- Modelled from the spec: padding one instance along a declared dynamic
padding dimension up to length `n` with the configured constant `c`
(the padding loop of the GenericInput op is not in the snapshot). -/
def padTo (n : Nat) (c : α) (xs : List α) : List α :=
  xs ++ List.replicate (n - xs.length) c

/-- Modelled from the spec: the maximum true extent among a flushed
batch's instances along the dynamic padding dimension. -/
def maxExtent (batch : List (List α)) : Nat :=
  (batch.map List.length).foldr max 0

/-- Modelled from the spec: on flush, every instance of the batch is
padded with the configured constant `c` to the batch's maximum observed
extent along the declared dynamic dimension, then stacked. -/
def flushPad (c : α) (batch : List (List α)) : List (List α) :=
  batch.map (padTo (maxExtent batch) c)

/-! ## geometry.py: bbox conversions -/

/-- From `geometry._BroadcastMatmul`, restricted to one row of the
flattened `[-1, b]` reshape: `z[c] = matmul(x[:], y)[c]`. -/
def vecMatmul {m c : ℕ} (x : Fin m → ℚ) (y : Matrix (Fin m) (Fin c) ℚ) :
    Fin c → ℚ :=
  fun j => ∑ k, x k * y k j

/-- From `geometry._BroadcastMatmul`: broadcast `y` and matmul with every
row of `x` (the leading dimensions flattened to a list of rows). -/
def BroadcastMatmul {m c : ℕ} (x : List (Fin m → ℚ))
    (y : Matrix (Fin m) (Fin c) ℚ) : List (Fin c → ℚ) :=
  x.map (fun r => vecMatmul r y)

/-- From `geometry.XYWHToBBoxes`: the coefficient rows
(ymin, xmin, ymax, xmax as combinations of the xywh components) before the
`.T` transpose taken in the source. -/
def xywhToBBoxesRows : Matrix (Fin 4) (Fin 4) ℚ :=
  Matrix.of ![![0, 1, 0, -(1/2 : ℚ)],
              ![1, 0, -(1/2), 0],
              ![0, 1, 0, 1/2],
              ![1, 0, 1/2, 0]]

/-- From `geometry.XYWHToBBoxes`: converts xywh to bboxes. -/
def XYWHToBBoxes (xywh : List (Fin 4 → ℚ)) : List (Fin 4 → ℚ) :=
  BroadcastMatmul xywh xywhToBBoxesRows.transpose

/-- From `geometry.BBoxesToXYWH`: the coefficient rows (x centroid,
y centroid, width, height as combinations of ymin/xmin/ymax/xmax) before
the `.T` transpose taken in the source. -/
def bboxesToXYWHRows : Matrix (Fin 4) (Fin 4) ℚ :=
  Matrix.of ![![0, 1/2, 0, (1/2 : ℚ)],
              ![1/2, 0, 1/2, 0],
              ![0, -1, 0, 1],
              ![-1, 0, 1, 0]]

/-- From `geometry.BBoxesToXYWH`: converts bboxes to xywh. -/
def BBoxesToXYWH (bboxes : List (Fin 4 → ℚ)) : List (Fin 4 → ℚ) :=
  BroadcastMatmul bboxes bboxesToXYWHRows.transpose

/-! ## geometry.py: 2-D point-in-bbox test -/

/-- The `d = d1 - d2` discriminant of `geometry._IsOnLeftHandSideOrOn`. -/
def leftCross (point v1 v2 : ℚ × ℚ) : ℚ :=
  (point.2 - v1.2) * (v2.1 - v1.1) - (point.1 - v1.1) * (v2.2 - v1.2)

/-- From `geometry._IsOnLeftHandSideOrOn`: whether `point` lays on the
direction `v1 -> v2` or is to the left of it (`d >= 0`). -/
def IsOnLeftHandSideOrOn (point v1 v2 : ℚ × ℚ) : Bool :=
  decide (leftCross point v1 v2 ≥ 0)

/-- The `d = d1 - d2` discriminant of
`geometry._IsCounterClockwiseDirection`. -/
def ccwCross (v1 v2 v3 : ℚ × ℚ) : ℚ :=
  (v3.2 - v1.2) * (v2.1 - v1.1) - (v3.1 - v1.1) * (v2.2 - v1.2)

/-- From `geometry._IsCounterClockwiseDirection`: whether the path from
`v1` to `v3` via `v2` is counter-clockwise (`d >= 0`). -/
def IsCounterClockwiseDirection (v1 v2 v3 : ℚ × ℚ) : Bool :=
  decide (ccwCross v1 v2 v3 ≥ 0)

/-- A 2-D bbox given by its four corners `bbox[..., 0..3, :]`. -/
structure Quad2D where
  v1 : ℚ × ℚ
  v2 : ℚ × ℚ
  v3 : ℚ × ℚ
  v4 : ℚ × ℚ

/-- From `geometry.IsWithinBBox`, for one point and one bbox: the four
counter-clockwise assertions guard the four is-left-of-or-on half-plane
checks.  `none` models a failed fatal assertion. -/
def IsWithinBBox (point : ℚ × ℚ) (bbox : Quad2D) : Option Bool :=
  if IsCounterClockwiseDirection bbox.v1 bbox.v2 bbox.v3 &&
     IsCounterClockwiseDirection bbox.v2 bbox.v3 bbox.v4 &&
     IsCounterClockwiseDirection bbox.v4 bbox.v1 bbox.v2 &&
     IsCounterClockwiseDirection bbox.v3 bbox.v4 bbox.v1 then
    some ((IsOnLeftHandSideOrOn point bbox.v1 bbox.v2 &&
           IsOnLeftHandSideOrOn point bbox.v2 bbox.v3) &&
          (IsOnLeftHandSideOrOn point bbox.v3 bbox.v4 &&
           IsOnLeftHandSideOrOn point bbox.v4 bbox.v1))
  else
    none

/-- The four counter-clockwise conditions asserted by `IsWithinBBox`. -/
def ccwQuad (q : Quad2D) : Prop :=
  0 ≤ ccwCross q.v1 q.v2 q.v3 ∧ 0 ≤ ccwCross q.v2 q.v3 q.v4 ∧
  0 ≤ ccwCross q.v4 q.v1 q.v2 ∧ 0 ≤ ccwCross q.v3 q.v4 q.v1

/-- Closed-region membership: on the left of, or exactly on, all four
edges of the quad. -/
def insideClosed (p : ℚ × ℚ) (q : Quad2D) : Prop :=
  0 ≤ leftCross p q.v1 q.v2 ∧ 0 ≤ leftCross p q.v2 q.v3 ∧
  0 ≤ leftCross p q.v3 q.v4 ∧ 0 ≤ leftCross p q.v4 q.v1

/-- Strict interior of the convex quad: strictly to the left of all four
edges. -/
def strictlyInside (p : ℚ × ℚ) (q : Quad2D) : Prop :=
  0 < leftCross p q.v1 q.v2 ∧ 0 < leftCross p q.v2 q.v3 ∧
  0 < leftCross p q.v3 q.v4 ∧ 0 < leftCross p q.v4 q.v1

/-- The center (vertex centroid) of the quad. -/
def quadCenter (q : Quad2D) : ℚ × ℚ :=
  ((q.v1.1 + q.v2.1 + q.v3.1 + q.v4.1) / 4,
   (q.v1.2 + q.v2.2 + q.v3.2 + q.v4.2) / 4)

/-- The point at parameter `t` along the segment from `a` to `b`. -/
def segPoint (t : ℚ) (a b : ℚ × ℚ) : ℚ × ℚ :=
  (a.1 + t * (b.1 - a.1), a.2 + t * (b.2 - a.2))

/-- Membership on one of the quad's four edges, at parameter `t`. -/
def onEdge (t : ℚ) (p : ℚ × ℚ) (q : Quad2D) : Prop :=
  0 ≤ t ∧ t ≤ 1 ∧
  (p = segPoint t q.v1 q.v2 ∨ p = segPoint t q.v2 q.v3 ∨
   p = segPoint t q.v3 q.v4 ∨ p = segPoint t q.v4 q.v1)

/-! ## geometry.py: 3-D boxes -/

/-- A 7-DOF bbox `[x, y, z, dx, dy, dz, phi]` where x, y and z is the
center of the box. -/
structure BBox3D where
  x : ℚ
  y : ℚ
  z : ℚ
  dx : ℚ
  dy : ℚ
  dz : ℚ
  phi : ℚ

/-- From `geometry.BBoxCorners`: the corners in the normalized box frame
(unit cube centered at the origin); the first four rows are the top face,
the last four the bottom face. -/
def unitCubeCorners : List (ℚ × ℚ × ℚ) :=
  [(1/2, 1/2, 1/2), (-(1/2), 1/2, 1/2),
   (-(1/2), -(1/2), 1/2), (1/2, -(1/2), 1/2),
   (1/2, 1/2, -(1/2)), (-(1/2), 1/2, -(1/2)),
   (-(1/2), -(1/2), -(1/2)), (1/2, -(1/2), -(1/2))]

/-- From `geometry.BBoxCorners`, for one box: scale the normalized
corners by the dimensions, rotate about unit z by `phi` (through its
cosine and sine, abstracted as `cosf`/`sinf`), then translate to the box
location. -/
def BBoxCorners (cosf sinf : ℚ → ℚ) (b : BBox3D) : List (ℚ × ℚ × ℚ) :=
  let cos := cosf b.phi
  let sin := sinf b.phi
  unitCubeCorners.map (fun corner =>
    let scaled : ℚ × ℚ × ℚ :=
      (b.dx * corner.1, b.dy * corner.2.1, b.dz * corner.2.2)
    let rotated : ℚ × ℚ × ℚ :=
      (cos * scaled.1 + -sin * scaled.2.1,
       sin * scaled.1 + cos * scaled.2.1,
       scaled.2.2)
    (rotated.1 + b.x, rotated.2.1 + b.y, rotated.2.2 + b.z))

/-- From `geometry.IsWithinBBox3D`: the 2-D (x, y) corners
`bbox_corners[0, :, 0:4, 0:2]` — the top face of the bounding box, in
counter-clockwise arrangement. -/
def bboxes2DCorners (cosf sinf : ℚ → ℚ) (b : BBox3D) : Quad2D :=
  let cs := (BBoxCorners cosf sinf b).map (fun p => (p.1, p.2.1))
  ⟨cs.getD 0 (0, 0), cs.getD 1 (0, 0), cs.getD 2 (0, 0), cs.getD 3 (0, 0)⟩

/-- From `geometry.IsWithinBBox3D`, for one point and one box: the 2-D
top-face test `IsWithinBBox` conjoined with the z-limits test
`z0 <= pz <= z1` where `z0 = z - dz/2` and `z1 = z + dz/2`
(`_ComputeLimits`). -/
def IsWithinBBox3DOne (cosf sinf : ℚ → ℚ) (p : ℚ × ℚ × ℚ) (b : BBox3D) :
    Option Bool := do
  let is_inside_2d ← IsWithinBBox (p.1, p.2.1) (bboxes2DCorners cosf sinf b)
  let z0 := b.z - b.dz / 2
  let z1 := b.z + b.dz / 2
  pure ((decide (p.2.2 ≤ z1) && decide (z0 ≤ p.2.2)) && is_inside_2d)

/-- From `geometry.IsWithinBBox3D`: the `[num_points, num_bboxes]`
boolean result; `none` models a failed counter-clockwise assertion inside
the broadcast `IsWithinBBox` call. -/
def IsWithinBBox3D (cosf sinf : ℚ → ℚ) (points_3d : List (ℚ × ℚ × ℚ))
    (bboxes_3d : List BBox3D) : Option (List (List Bool)) :=
  points_3d.mapM (fun p => bboxes_3d.mapM (IsWithinBBox3DOne cosf sinf p))

/-! ## geometry.py: CoordinateTransform -/

/-- Row-major `tf.reshape(flat, shape=[3, 3])` of a 9-element list. -/
def reshape3x3 (flat : List ℚ) : Matrix (Fin 3) (Fin 3) ℚ :=
  Matrix.of fun i j => flat.getD (3 * i.val + j.val) 0

/-- From `geometry.CoordinateTransform.UnitX`: rotation about X. -/
def UnitX (cosf sinf : ℚ → ℚ) (angle : ℚ) : Matrix (Fin 3) (Fin 3) ℚ :=
  reshape3x3 [1, 0, 0,
              0, cosf angle, -sinf angle,
              0, sinf angle, cosf angle]

/-- From `geometry.CoordinateTransform.UnitY`: rotation about Y. -/
def UnitY (cosf sinf : ℚ → ℚ) (angle : ℚ) : Matrix (Fin 3) (Fin 3) ℚ :=
  reshape3x3 [cosf angle, 0, sinf angle,
              0, 1, 0,
              -sinf angle, 0, cosf angle]

/-- From `geometry.CoordinateTransform.UnitZ`: rotation about Z. -/
def UnitZ (cosf sinf : ℚ → ℚ) (angle : ℚ) : Matrix (Fin 3) (Fin 3) ℚ :=
  reshape3x3 [cosf angle, -sinf angle, 0,
              sinf angle, cosf angle, 0,
              0, 0, 1]

/-- From `geometry.CoordinateTransform`: translate `points` by
`pose[0:3]`, compose the rotations `Yaw->Z, Roll->X, Pitch->Y` as
`matmul(matmul(UnitZ(yaw), UnitX(roll)), UnitY(pitch))`, and rotate the
translated points by the rotation matrix. -/
def CoordinateTransform (cosf sinf : ℚ → ℚ) (points : List (Fin 3 → ℚ))
    (pose : Fin 6 → ℚ) : List (Fin 3 → ℚ) :=
  let translation : Fin 3 → ℚ := ![pose 0, pose 1, pose 2]
  let translated_points := points.map (fun p => fun i => p i + translation i)
  let rotation_matrix :=
    UnitZ cosf sinf (pose 3) * UnitX cosf sinf (pose 4) * UnitY cosf sinf (pose 5)
  BroadcastMatmul translated_points rotation_matrix

/-- Rotation about Z, written directly as a matrix literal (spec side of
the C6 refinement). -/
def rotZSpec (cosf sinf : ℚ → ℚ) (angle : ℚ) : Matrix (Fin 3) (Fin 3) ℚ :=
  Matrix.of ![![cosf angle, -sinf angle, 0],
              ![sinf angle, cosf angle, 0],
              ![0, 0, 1]]

/-- Rotation about X, written directly as a matrix literal (spec side of
the C6 refinement). -/
def rotXSpec (cosf sinf : ℚ → ℚ) (angle : ℚ) : Matrix (Fin 3) (Fin 3) ℚ :=
  Matrix.of ![![1, 0, 0],
              ![0, cosf angle, -sinf angle],
              ![0, sinf angle, cosf angle]]

/-- Rotation about Y, written directly as a matrix literal (spec side of
the C6 refinement). -/
def rotYSpec (cosf sinf : ℚ → ℚ) (angle : ℚ) : Matrix (Fin 3) (Fin 3) ℚ :=
  Matrix.of ![![cosf angle, 0, sinf angle],
              ![0, 1, 0],
              ![-sinf angle, 0, cosf angle]]

/-- Modelled from the spec (spec side of the C6 refinement): "translate
by `(tx,ty,tz)`, then rotate by composing rotation-about-Z(yaw) ·
rotation-about-X(roll) · rotation-about-Y(pitch), applied as
`points' = (points + translation) @ R`" — each translated point is
multiplied (as a row vector) by Z(yaw), then X(roll), then Y(pitch). -/
def CoordinateTransformSpec (cosf sinf : ℚ → ℚ) (points : List (Fin 3 → ℚ))
    (pose : Fin 6 → ℚ) : List (Fin 3 → ℚ) :=
  points.map (fun p =>
    vecMatmul (vecMatmul (vecMatmul
        (fun i => p i + ![pose 0, pose 1, pose 2] i)
        (rotZSpec cosf sinf (pose 3)))
      (rotXSpec cosf sinf (pose 4)))
    (rotYSpec cosf sinf (pose 5)))

/-! ## geometry.py: SphericalCoordinatesTransform -/

/-- From `geometry.SphericalCoordinatesTransform`: the clamped
denominator `tf.maximum(dist, 1e-7)` of the inclination. -/
def sphericalDenominator (sqrtf : ℚ → ℚ) (points_xyz : ℚ × ℚ × ℚ) : ℚ :=
  max (sqrtf (points_xyz.1 ^ 2 + points_xyz.2.1 ^ 2 + points_xyz.2.2 ^ 2))
    (1 / 10 ^ 7)

/-- From `geometry.SphericalCoordinatesTransform`: converts xyz to
`(dist, theta, phi)` spherical coordinates; `sqrtf`, `acosf` and `atan2f`
abstract the machine `tf.sqrt`, `tf.acos` and `tf.atan2(y, x)`. -/
def SphericalCoordinatesTransform (sqrtf acosf : ℚ → ℚ)
    (atan2f : ℚ → ℚ → ℚ) (points_xyz : ℚ × ℚ × ℚ) : ℚ × ℚ × ℚ :=
  let dist :=
    sqrtf (points_xyz.1 ^ 2 + points_xyz.2.1 ^ 2 + points_xyz.2.2 ^ 2)
  let theta := acosf (points_xyz.2.2 / max dist (1 / 10 ^ 7))
  let phi := atan2f points_xyz.2.1 points_xyz.1
  (dist, theta, phi)

/-! ## point_detector.py: score masking in Decode and Inference -/

/-- From `PointDetectorBase.Decode` and `.Inference`:
`per_cls_bbox_scores *= per_cls_valid_mask`, elementwise over one
example-and-class row of the `[batch, num_classes, max_nms_boxes]`
tensors. -/
def maskScores (per_cls_bbox_scores per_cls_valid_mask : List ℚ) : List ℚ :=
  List.zipWith (· * ·) per_cls_bbox_scores per_cls_valid_mask

/-- From `PointDetectorBase.Decode`: `tf.where(weights >= threshold,
weights, zeros_like(weights))` — the visualization weights keep an entry
when it reaches the threshold and replace it by zero otherwise. -/
def visualizationWeights (weights : List ℚ) (threshold : ℚ) : List ℚ :=
  weights.map (fun w => if w ≥ threshold then w else 0)

/-- From `PointDetectorBase.Decode`: the per-class bbox scores and
visualization weights computed from the NMS output scores and validity
mask. -/
def DecodeScores (nms_scores valid_mask : List ℚ) (threshold : ℚ) :
    List ℚ × List ℚ :=
  let per_cls_bbox_scores := maskScores nms_scores valid_mask
  (per_cls_bbox_scores, visualizationWeights per_cls_bbox_scores threshold)

/-- From `PointDetectorBase.Inference`: the fetched per-class bbox scores
computed from the NMS output scores and validity mask. -/
def InferenceScores (nms_scores valid_mask : List ℚ) : List ℚ :=
  maskScores nms_scores valid_mask

/-! ## waymo_open_input_generator.py: per-pixel-pose branch -/

/-- The rotation block `pose[0:3, 0:3]` of a 4x4 pose matrix. -/
def rot3 (m : Matrix (Fin 4) (Fin 4) ℚ) : Matrix (Fin 3) (Fin 3) ℚ :=
  Matrix.of fun i j => m i.castSucc j.castSucc

/-- The translation column `pose[0:3, 3]` of a 4x4 pose matrix. -/
def trans3 (m : Matrix (Fin 4) (Fin 4) ℚ) : Fin 3 → ℚ :=
  fun i => m i.castSucc 3

/-- `tf.matrix_inverse` on a 4x4 matrix: `det⁻¹ • adjugate`, which is the
matrix inverse whenever the determinant is nonzero (the only case in
which `tf.matrix_inverse` is defined). -/
def matrixInverse4 (m : Matrix (Fin 4) (Fin 4) ℚ) : Matrix (Fin 4) (Fin 4) ℚ :=
  m.det⁻¹ • m.adjugate

/-- From `_XYZFromRangeImage` (pixel-pose branch): each lidar point
(already transformed to world coordinates by the extrinsics) is paired
with its per-pixel pose; the points are transformed by their pixel pose
(`einsum('hwij,hwj->hwi', rotation, points) + translation`), and the
result is then transformed by `world_to_vehicle =
tf.matrix_inverse(frame_pose)` (`einsum('ij,hwj->hwi', rotation, points)
+ translation`). -/
def XYZFromRangeImagePixelPose
    (points_and_poses : List ((Fin 3 → ℚ) × Matrix (Fin 4) (Fin 4) ℚ))
    (frame_pose : Matrix (Fin 4) (Fin 4) ℚ) : List (Fin 3 → ℚ) :=
  let afterPixelPose := points_and_poses.map
    (fun pp => (rot3 pp.2).mulVec pp.1 + trans3 pp.2)
  let world_to_vehicle := matrixInverse4 frame_pose
  afterPixelPose.map
    (fun q => (rot3 world_to_vehicle).mulVec q + trans3 world_to_vehicle)

/-- Modelled from the spec (spec side of the C9 refinement): the
documented composition order — each point is transformed first by its
per-pixel pose (rotation then translation) and only afterwards by the
world-to-vehicle transform, the matrix inverse of the frame pose. -/
def pixelPoseThenWorldToVehicle
    (points_and_poses : List ((Fin 3 → ℚ) × Matrix (Fin 4) (Fin 4) ℚ))
    (frame_pose : Matrix (Fin 4) (Fin 4) ℚ) : List (Fin 3 → ℚ) :=
  points_and_poses.map (fun pp =>
    (rot3 (matrixInverse4 frame_pose)).mulVec
        ((rot3 pp.2).mulVec pp.1 + trans3 pp.2) +
      trans3 (matrixInverse4 frame_pose))

/-! ## point_detector.py: DecodeFinalize -/

/-- From `PointDetectorBase.DecodeFinalize`: with a falsy (empty)
`decode_out` the method returns before opening the record writer (`none`:
no file is created at `decode_out_path`); otherwise it writes the
serialized value of every `(key, value)` element of `decode_out`, in list
order, to the newly created file. -/
def DecodeFinalize {K V : Type} (decode_out : List (K × V)) :
    Option (List V) :=
  if decode_out.isEmpty then none
  else some (decode_out.map Prod.snd)

end Lingvo

namespace Lingvo

/-! ### Claim C1 and C2 theorems -/

theorem length_le_maxExtent {α : Type} (batch : List (List α)) (xs : List α)
    (hmem : xs ∈ batch) : xs.length ≤ maxExtent batch := by
  induction batch with
  | nil => cases hmem
  | cons y ys ih =>
    rcases List.mem_cons.mp hmem with h | h
    · simp [maxExtent, h]
    · have := ih h
      simp only [maxExtent, List.map_cons, List.foldr_cons]
      exact le_max_of_le_right (by simpa [maxExtent] using this)

theorem padTo_length {α : Type} (n : Nat) (c : α) (xs : List α)
    (h : xs.length ≤ n) : (padTo n c xs).length = n := by
  simp [padTo, List.length_append, List.length_replicate]
  omega

theorem findIdxQ_none_of_all {α : Type} (p : α → Bool) (l : List α)
    (h : ∀ x ∈ l, p x = false) : l.findIdx? p = none :=
  List.findIdx?_eq_none_iff.mpr h

theorem findIdxQ_some_spec {α : Type} (p : α → Bool) (l : List α) (i : Nat)
    (h : l.findIdx? p = some i) :
    ∃ hi : i < l.length, p (l.get ⟨i, hi⟩) = true ∧
      ∀ j (hj : j < i), p (l.get ⟨j, by omega⟩) = false := by
  obtain ⟨hi, hp, hprev⟩ := List.findIdx?_eq_some_iff_getElem.mp h
  exact ⟨hi, hp, fun j hj => by simpa using hprev j hj⟩

theorem findIdxQ_isSome_of_exists {α : Type} (p : α → Bool) (l : List α)
    (h : ∃ x ∈ l, p x = true) : (l.findIdx? p).isSome := by
  rw [List.findIdx?_isSome]
  rcases h with ⟨x, hx, hpx⟩
  exact List.any_eq_true.mpr ⟨x, hx, hpx⟩

/-- C1: a record with bucket key `<= 0`, or whose key exceeds every
configured bucket upper bound, is dropped (routed to no bucket); otherwise
it is routed to the first (smallest) bucket whose upper bound is `>= key`.
In the extractor layer the configured upper bound list is
`[BUCKET_UPPER_BOUND - 1] = [9998]`, so every record with key `>= 9999`
is force-dropped. -/
theorem bucket_routing_spec (key : Int) (bounds : List Int) :
    (key ≤ 0 → routeBucket key bounds = none) ∧
    ((∀ b ∈ bounds, b < key) → routeBucket key bounds = none) ∧
    (∀ i, routeBucket key bounds = some i →
      ∃ hi : i < bounds.length, key ≤ bounds.get ⟨i, hi⟩ ∧
        ∀ j (hj : j < i), bounds.get ⟨j, by omega⟩ < key) ∧
    (0 < key → (∃ b ∈ bounds, key ≤ b) → (routeBucket key bounds).isSome) ∧
    (extractorBucketUpperBound = [9998]) ∧
    (BUCKET_UPPER_BOUND ≤ key → routeBucket key extractorBucketUpperBound = none) := by
  refine ⟨?_, ?_, ?_, ?_, ?_, ?_⟩
  · intro h
    simp [routeBucket, h]
  · intro h
    unfold routeBucket
    split
    · rfl
    · exact findIdxQ_none_of_all _ _ (fun b hb => by
        simpa using not_le.mpr (h b hb))
  · intro i hroute
    unfold routeBucket at hroute
    split at hroute
    · cases hroute
    · obtain ⟨hi, hp, hprev⟩ := findIdxQ_some_spec _ _ _ hroute
      refine ⟨hi, by simpa using hp, fun j hj => ?_⟩
      have := hprev j hj
      simpa using this
  · intro hpos hex
    unfold routeBucket
    rw [if_neg (not_le.mpr hpos)]
    exact findIdxQ_isSome_of_exists _ _ (by
      rcases hex with ⟨b, hb, hkb⟩
      exact ⟨b, hb, by simpa using hkb⟩)
  · rfl
  · intro h
    unfold routeBucket extractorBucketUpperBound BUCKET_UPPER_BOUND at *
    split
    · rfl
    · rw [findIdxQ_none_of_all]
      intro b hb
      simp only [List.mem_singleton] at hb
      subst hb
      simp only [decide_eq_false_iff_not, not_le]
      omega

/-- Witness for C1 at concrete inputs. -/
theorem bucket_routing_spec_witness :
    routeBucket (-3) [5, 10] = none ∧
    routeBucket 12 [5, 10] = none ∧
    routeBucket 9999 extractorBucketUpperBound = none := by
  refine ⟨(bucket_routing_spec (-3) [5, 10]).1 (by decide),
          (bucket_routing_spec 12 [5, 10]).2.1 (by decide),
          (bucket_routing_spec 9999 [5, 10]).2.2.2.2.2 (by decide)⟩

/-- C2: on a batch flush, with `n` the maximum true extent among the
batch's instances along a declared dynamic padding dimension, every
instance's entries below its true extent are unchanged, its positions from
its true extent up to `n` hold the configured padding constant, and every
stacked instance's extent along that dimension equals exactly `n`. -/
theorem dynamic_padding_spec {α : Type} (c : α) (batch : List (List α))
    (xs : List α) (hmem : xs ∈ batch) :
    (padTo (maxExtent batch) c xs ∈ flushPad c batch) ∧
    ((padTo (maxExtent batch) c xs).take xs.length = xs) ∧
    (∀ k, xs.length ≤ k → k < maxExtent batch →
      (padTo (maxExtent batch) c xs).getD k c = c) ∧
    ((padTo (maxExtent batch) c xs).length = maxExtent batch) := by
  have hlen : xs.length ≤ maxExtent batch := length_le_maxExtent batch xs hmem
  refine ⟨List.mem_map_of_mem _ hmem, ?_, ?_, padTo_length _ _ _ hlen⟩
  · simp [padTo, List.take_append_eq_append_take]
  · intro k hk1 hk2
    unfold padTo
    rw [List.getD_eq_getElem?_getD, List.getElem?_append_right hk1]
    have : k - xs.length < maxExtent batch - xs.length := by omega
    rw [List.getElem?_replicate]
    simp [this]

/-- Witness for C2 at a concrete batch. -/
theorem dynamic_padding_spec_witness :
    padTo (maxExtent [[1, 2], [3]]) 0 [3] ∈ flushPad 0 [[1, 2], [3]] ∧
    (padTo (maxExtent [[1, 2], [3]]) 0 [3]).take 1 = [3] ∧
    (padTo (maxExtent [[1, 2], [3]]) 0 [3]).getD 1 0 = 0 ∧
    (padTo (maxExtent [[1, 2], [3]]) 0 [3]).length = 2 := by
  obtain ⟨h1, h2, h3, h4⟩ :=
    dynamic_padding_spec (α := Nat) 0 [[1, 2], [3]] [3] (by simp)
  exact ⟨h1, h2, h3 1 (by simp) (by simp [maxExtent]), h4⟩

/-! ### Claim C3: bbox conversion round trip -/

theorem xywh_roundtrip_vec (x : Fin 4 → ℚ) :
    vecMatmul (vecMatmul x xywhToBBoxesRows.transpose)
      bboxesToXYWHRows.transpose = x := by
  funext j
  fin_cases j <;>
    · simp [vecMatmul, xywhToBBoxesRows, bboxesToXYWHRows, Matrix.transpose,
        Fin.sum_univ_four, Matrix.of_apply, Matrix.cons_val_zero,
        Matrix.cons_val_one, Matrix.head_cons]
      ring

/-- C3: `BBoxesToXYWH (XYWHToBBoxes x) = x` — the two fixed linear maps
between centroid form (cx, cy, w, h) and corner form
(ymin, xmin, ymax, xmax) are mutually inverse on this round trip, exactly
(hence within any floating tolerance). -/
theorem bboxes_xywh_roundtrip (xywh : List (Fin 4 → ℚ)) :
    BBoxesToXYWH (XYWHToBBoxes xywh) = xywh := by
  unfold BBoxesToXYWH XYWHToBBoxes BroadcastMatmul
  rw [List.map_map]
  conv_rhs => rw [← List.map_id xywh]
  refine List.map_congr_left (fun x _ => ?_)
  exact xywh_roundtrip_vec x

/-! ### Claim C4: 2-D point-in-bbox test -/

theorem isWithinBBox_of_ccw (p : ℚ × ℚ) (q : Quad2D) (h : ccwQuad q) :
    IsWithinBBox p q =
      some ((IsOnLeftHandSideOrOn p q.v1 q.v2 &&
             IsOnLeftHandSideOrOn p q.v2 q.v3) &&
            (IsOnLeftHandSideOrOn p q.v3 q.v4 &&
             IsOnLeftHandSideOrOn p q.v4 q.v1)) := by
  obtain ⟨h1, h2, h3, h4⟩ := h
  unfold IsWithinBBox
  rw [if_pos]
  simp [IsCounterClockwiseDirection, ge_iff_le, h1, h2, h3, h4]

theorem isWithinBBox_some_true (p : ℚ × ℚ) (q : Quad2D) (h : ccwQuad q)
    (hin : insideClosed p q) : IsWithinBBox p q = some true := by
  obtain ⟨l1, l2, l3, l4⟩ := hin
  rw [isWithinBBox_of_ccw p q h]
  simp [IsOnLeftHandSideOrOn, ge_iff_le, l1, l2, l3, l4]

theorem isWithinBBox_some_false (p : ℚ × ℚ) (q : Quad2D) (h : ccwQuad q)
    (hout : ¬ insideClosed p q) : IsWithinBBox p q = some false := by
  rw [isWithinBBox_of_ccw p q h]
  unfold insideClosed at hout
  push_neg at hout
  by_cases l1 : 0 ≤ leftCross p q.v1 q.v2
  · by_cases l2 : 0 ≤ leftCross p q.v2 q.v3
    · by_cases l3 : 0 ≤ leftCross p q.v3 q.v4
      · have l4 := not_le.mpr (hout l1 l2 l3)
        simp [IsOnLeftHandSideOrOn, ge_iff_le, l4]
      · simp [IsOnLeftHandSideOrOn, ge_iff_le, l3]
    · simp [IsOnLeftHandSideOrOn, ge_iff_le, l2]
  · simp [IsOnLeftHandSideOrOn, ge_iff_le, l1]

theorem center_insideClosed (q : Quad2D) (h : ccwQuad q) :
    insideClosed (quadCenter q) q := by
  obtain ⟨h1, h2, h3, h4⟩ := h
  unfold ccwCross at h1 h2 h3 h4
  have e1 : leftCross (quadCenter q) q.v1 q.v2 =
      (ccwCross q.v1 q.v2 q.v3 + ccwCross q.v4 q.v1 q.v2) / 4 := by
    simp only [leftCross, quadCenter, ccwCross]
    ring
  have e2 : leftCross (quadCenter q) q.v2 q.v3 =
      (ccwCross q.v2 q.v3 q.v4 + ccwCross q.v1 q.v2 q.v3) / 4 := by
    simp only [leftCross, quadCenter, ccwCross]
    ring
  have e3 : leftCross (quadCenter q) q.v3 q.v4 =
      (ccwCross q.v3 q.v4 q.v1 + ccwCross q.v2 q.v3 q.v4) / 4 := by
    simp only [leftCross, quadCenter, ccwCross]
    ring
  have e4 : leftCross (quadCenter q) q.v4 q.v1 =
      (ccwCross q.v4 q.v1 q.v2 + ccwCross q.v3 q.v4 q.v1) / 4 := by
    simp only [leftCross, quadCenter, ccwCross]
    ring
  unfold ccwCross at e1 e2 e3 e4
  exact ⟨by rw [e1]; linarith, by rw [e2]; linarith,
         by rw [e3]; linarith, by rw [e4]; linarith⟩

theorem onSegment_leftCross (a b c d : ℚ × ℚ) (t : ℚ)
    (h0 : 0 ≤ t) (h1 : t ≤ 1)
    (hC1 : 0 ≤ ccwCross a b c) (hC2 : 0 ≤ ccwCross b c d)
    (hC3 : 0 ≤ ccwCross c d a) (hC4 : 0 ≤ ccwCross d a b) :
    0 ≤ leftCross (segPoint t a b) a b ∧
    0 ≤ leftCross (segPoint t a b) b c ∧
    0 ≤ leftCross (segPoint t a b) c d ∧
    0 ≤ leftCross (segPoint t a b) d a := by
  have e1 : leftCross (segPoint t a b) a b = 0 := by
    simp only [leftCross, segPoint]
    ring
  have e2 : leftCross (segPoint t a b) b c = (1 - t) * ccwCross a b c := by
    simp only [leftCross, segPoint, ccwCross]
    ring
  have e3 : leftCross (segPoint t a b) c d =
      (1 - t) * ccwCross c d a + t * ccwCross b c d := by
    simp only [leftCross, segPoint, ccwCross]
    ring
  have e4 : leftCross (segPoint t a b) d a = t * ccwCross d a b := by
    simp only [leftCross, segPoint, ccwCross]
    ring
  refine ⟨le_of_eq e1.symm, ?_, ?_, ?_⟩
  · rw [e2]
    exact mul_nonneg (by linarith) hC1
  · rw [e3]
    exact add_nonneg (mul_nonneg (by linarith) hC3) (mul_nonneg h0 hC2)
  · rw [e4]
    exact mul_nonneg h0 hC4

theorem onEdge_insideClosed (q : Quad2D) (p : ℚ × ℚ) (t : ℚ)
    (h : ccwQuad q) (he : onEdge t p q) : insideClosed p q := by
  obtain ⟨h1, h2, h3, h4⟩ := h
  obtain ⟨ht0, ht1, hcases⟩ := he
  rcases hcases with rfl | rfl | rfl | rfl
  · obtain ⟨a1, a2, a3, a4⟩ :=
      onSegment_leftCross q.v1 q.v2 q.v3 q.v4 t ht0 ht1 h1 h2 h4 h3
    exact ⟨a1, a2, a3, a4⟩
  · obtain ⟨a1, a2, a3, a4⟩ :=
      onSegment_leftCross q.v2 q.v3 q.v4 q.v1 t ht0 ht1 h2 h4 h3 h1
    exact ⟨a4, a1, a2, a3⟩
  · obtain ⟨a1, a2, a3, a4⟩ :=
      onSegment_leftCross q.v3 q.v4 q.v1 q.v2 t ht0 ht1 h4 h3 h1 h2
    exact ⟨a3, a4, a1, a2⟩
  · obtain ⟨a1, a2, a3, a4⟩ :=
      onSegment_leftCross q.v4 q.v1 q.v2 q.v3 t ht0 ht1 h3 h1 h2 h4
    exact ⟨a2, a3, a4, a1⟩

/-- C4: for a 2-D box whose 4 corners pass the counter-clockwise
assertions, `IsWithinBBox` returns true for every point strictly inside
the box, for the box center, and for every point exactly on an edge, and
returns false for every point outside the closed region; if the corners
are given in (strictly) clockwise order instead, the first
counter-clockwise assertion fails and the call aborts (`none`) rather
than returning a value. -/
theorem isWithinBBox_spec (q : Quad2D) (p : ℚ × ℚ) (t : ℚ) :
    (ccwQuad q → strictlyInside p q → IsWithinBBox p q = some true) ∧
    (ccwQuad q → IsWithinBBox (quadCenter q) q = some true) ∧
    (ccwQuad q → onEdge t p q → IsWithinBBox p q = some true) ∧
    (ccwQuad q → ¬ insideClosed p q → IsWithinBBox p q = some false) ∧
    (ccwCross q.v1 q.v2 q.v3 < 0 → IsWithinBBox p q = none) := by
  refine ⟨?_, ?_, ?_, ?_, ?_⟩
  · intro h hs
    obtain ⟨s1, s2, s3, s4⟩ := hs
    exact isWithinBBox_some_true p q h ⟨le_of_lt s1, le_of_lt s2,
      le_of_lt s3, le_of_lt s4⟩
  · intro h
    exact isWithinBBox_some_true _ q h (center_insideClosed q h)
  · intro h he
    exact isWithinBBox_some_true p q h (onEdge_insideClosed q p t h he)
  · intro h hout
    exact isWithinBBox_some_false p q h hout
  · intro hcw
    unfold IsWithinBBox
    rw [if_neg]
    intro hcond
    rw [Bool.and_eq_true, Bool.and_eq_true, Bool.and_eq_true] at hcond
    have := hcond.1.1.1
    unfold IsCounterClockwiseDirection at this
    rw [decide_eq_true_eq] at this
    exact absurd this (not_le.mpr hcw)

/-- Witness for C4 on the unit square (and a clockwise quad for the
assertion branch). -/
theorem isWithinBBox_spec_witness :
    IsWithinBBox (1/2, 1/4) ⟨(0, 0), (1, 0), (1, 1), (0, 1)⟩ = some true ∧
    IsWithinBBox (quadCenter ⟨(0, 0), (1, 0), (1, 1), (0, 1)⟩)
      ⟨(0, 0), (1, 0), (1, 1), (0, 1)⟩ = some true ∧
    IsWithinBBox (1/2, 0) ⟨(0, 0), (1, 0), (1, 1), (0, 1)⟩ = some true ∧
    IsWithinBBox (2, 0) ⟨(0, 0), (1, 0), (1, 1), (0, 1)⟩ = some false ∧
    IsWithinBBox (1/2, 1/4) ⟨(0, 0), (0, 1), (1, 1), (1, 0)⟩ = none := by
  refine ⟨(isWithinBBox_spec _ (1/2, 1/4) 0).1
            (by norm_num [ccwQuad, ccwCross])
            (by norm_num [strictlyInside, leftCross]),
          (isWithinBBox_spec _ (0, 0) 0).2.1 (by norm_num [ccwQuad, ccwCross]),
          (isWithinBBox_spec _ (1/2, 0) (1/2)).2.2.1
            (by norm_num [ccwQuad, ccwCross]) ?_,
          (isWithinBBox_spec _ (2, 0) 0).2.2.2.1
            (by norm_num [ccwQuad, ccwCross])
            (by norm_num [insideClosed, leftCross]),
          (isWithinBBox_spec _ (1/2, 1/4) 0).2.2.2.2
            (by norm_num [ccwCross])⟩
  exact ⟨by norm_num, by norm_num, Or.inl (by norm_num [segPoint])⟩

/-! ### Claim C5: 3-D point-in-bbox test -/

theorem mapM_option_getElem {α β : Type} (f : α → Option β) (l : List α)
    (ys : List β) (h : l.mapM f = some ys) :
    ys.length = l.length ∧ ∀ i : Nat, ys[i]? = l[i]?.bind f := by
  induction l generalizing ys with
  | nil =>
    simp only [List.mapM_nil, pure, Option.some.injEq] at h
    subst h
    simp
  | cons x xs ih =>
    rw [List.mapM_cons] at h
    cases hfx : f x with
    | none => simp [hfx, Option.bind] at h
    | some y =>
      cases hxs : xs.mapM f with
      | none =>
        have hxs' : List.mapM.loop f xs [] = (none : Option (List β)) := hxs
        simp [hfx, hxs', Option.bind] at h
      | some ys' =>
        rw [hfx] at h
        rw [show (some y >>= fun y => xs.mapM f >>= fun ys' =>
            pure (y :: ys') : Option (List β)) =
            (xs.mapM f >>= fun ys' => pure (y :: ys')) from rfl] at h
        rw [hxs] at h
        simp only [Option.bind_eq_bind, Option.some_bind, Option.pure_def,
          Option.some.injEq] at h
        subst h
        obtain ⟨hlen, hidx⟩ := ih ys' hxs
        refine ⟨by simp [hlen], ?_⟩
        intro i
        cases i with
        | zero => simp [hfx]
        | succ i' => simpa using hidx i'

theorem isWithinBBox3DOne_spec (cosf sinf : ℚ → ℚ) (p : ℚ × ℚ × ℚ)
    (b : BBox3D) (r : Bool)
    (h : IsWithinBBox3DOne cosf sinf p b = some r) :
    r = true ↔
      (IsWithinBBox (p.1, p.2.1) (bboxes2DCorners cosf sinf b) = some true ∧
       b.z - b.dz / 2 ≤ p.2.2 ∧ p.2.2 ≤ b.z + b.dz / 2) := by
  unfold IsWithinBBox3DOne at h
  cases h2 : IsWithinBBox (p.1, p.2.1) (bboxes2DCorners cosf sinf b) with
  | none => rw [h2] at h; simp [Option.bind] at h
  | some b2 =>
    rw [h2] at h
    simp only [Option.bind_eq_bind, Option.some_bind, pure,
      Option.some.injEq] at h
    subst h
    simp only [Bool.and_eq_true, decide_eq_true_eq, Option.some.injEq]
    constructor
    · rintro ⟨⟨hz1, hz0⟩, hb2⟩
      exact ⟨by rw [hb2], hz0, hz1⟩
    · rintro ⟨hb2, hz0, hz1⟩
      exact ⟨⟨hz1, hz0⟩, hb2⟩

/-- C5: whenever `IsWithinBBox3D` succeeds, its `[i, j]` entry is true
exactly when the point's (x, y) lies within the 2-D polygon formed by the
first four (top-face) corners of `BBoxCorners` applied to box `j`, and
the point's z lies in the closed interval
`[z_j - dz_j/2, z_j + dz_j/2]`. -/
theorem isWithinBBox3D_spec (cosf sinf : ℚ → ℚ) (points : List (ℚ × ℚ × ℚ))
    (boxes : List BBox3D) (m : List (List Bool)) (i j : Nat)
    (p : ℚ × ℚ × ℚ) (b : BBox3D)
    (hm : IsWithinBBox3D cosf sinf points boxes = some m)
    (hp : points[i]? = some p) (hb : boxes[j]? = some b) :
    ∃ row, m[i]? = some row ∧ ∃ r, row[j]? = some r ∧
      (r = true ↔
        (IsWithinBBox (p.1, p.2.1) (bboxes2DCorners cosf sinf b) = some true ∧
         b.z - b.dz / 2 ≤ p.2.2 ∧ p.2.2 ≤ b.z + b.dz / 2)) := by
  obtain ⟨hlen, hidx⟩ := mapM_option_getElem _ points m hm
  have hrow := hidx i
  rw [hp] at hrow
  simp only [Option.some_bind] at hrow
  cases hrm : boxes.mapM (IsWithinBBox3DOne cosf sinf p) with
  | none =>
    rw [hrm] at hrow
    have hip : i < points.length := (List.getElem?_eq_some_iff.mp hp).1
    have him : i < m.length := by omega
    rw [List.getElem?_eq_getElem him] at hrow
    cases hrow
  | some row =>
    rw [hrm] at hrow
    refine ⟨row, hrow, ?_⟩
    obtain ⟨hlen2, hidx2⟩ := mapM_option_getElem _ boxes row hrm
    have hcell := hidx2 j
    rw [hb] at hcell
    simp only [Option.some_bind] at hcell
    cases hone : IsWithinBBox3DOne cosf sinf p b with
    | none =>
      rw [hone] at hcell
      have hjb : j < boxes.length := (List.getElem?_eq_some_iff.mp hb).1
      have hjr : j < row.length := by omega
      rw [List.getElem?_eq_getElem hjr] at hcell
      cases hcell
    | some r =>
      rw [hone] at hcell
      exact ⟨r, hcell, isWithinBBox3DOne_spec cosf sinf p b r hone⟩

/-- Witness for C5: one point at the origin, one axis-aligned 2x2x2 box
centered at the origin, `cosf`/`sinf` interpreted at the true values of
cos 0 and sin 0. -/
theorem isWithinBBox3D_spec_witness :
    ∃ row, (([[true]] : List (List Bool)))[0]? = some row ∧
      ∃ r, row[0]? = some r ∧
        (r = true ↔
          (IsWithinBBox (0, 0)
            (bboxes2DCorners (fun _ => 1) (fun _ => 0) ⟨0, 0, 0, 2, 2, 2, 0⟩) =
              some true ∧
           (0 : ℚ) - 2 / 2 ≤ 0 ∧ (0 : ℚ) ≤ 0 + 2 / 2)) := by
  have h := isWithinBBox3D_spec (fun _ => 1) (fun _ => 0) [(0, 0, 0)]
    [⟨0, 0, 0, 2, 2, 2, 0⟩] [[true]] 0 0 (0, 0, 0) ⟨0, 0, 0, 2, 2, 2, 0⟩
    ?_ rfl rfl
  · simpa using h
  · show List.mapM _ _ = _
    simp only [List.mapM_cons, List.mapM_nil, IsWithinBBox3DOne,
      bboxes2DCorners, BBoxCorners, unitCubeCorners, List.map_cons,
      IsWithinBBox, IsCounterClockwiseDirection, IsOnLeftHandSideOrOn,
      ccwCross, leftCross]
    norm_num

/-! ### Claim C6: CoordinateTransform -/

/-- C6: `CoordinateTransform` returns `(points + (tx,ty,tz)) @ R` with
`R = Rz(yaw) * Rx(roll) * Ry(pitch)`: the translation is applied first,
and each translated point is then multiplied (as a row vector) by the
rotation about Z by yaw, then the rotation about X by roll, then the
rotation about Y by pitch — for every interpretation `cosf`/`sinf` of the
machine cosine and sine. -/
theorem coordinateTransform_spec (cosf sinf : ℚ → ℚ)
    (points : List (Fin 3 → ℚ)) (pose : Fin 6 → ℚ) :
    CoordinateTransform cosf sinf points pose =
      CoordinateTransformSpec cosf sinf points pose := by
  unfold CoordinateTransform CoordinateTransformSpec BroadcastMatmul
  simp only [List.map_map]
  refine List.map_congr_left (fun p _ => ?_)
  funext j
  fin_cases j <;>
    · simp only [Function.comp, vecMatmul, UnitX, UnitY, UnitZ, rotXSpec,
        rotYSpec, rotZSpec,
        reshape3x3, Matrix.mul_apply, Fin.sum_univ_three, Matrix.of_apply,
        Matrix.cons_val_zero, Matrix.cons_val_one, Matrix.head_cons,
        Matrix.cons_val_two, Matrix.tail_cons, Fin.val_zero, Fin.val_one,
        Fin.val_two, Fin.isValue]
      norm_num [List.getD] <;> ring

/-! ### Claim C7: SphericalCoordinatesTransform totality -/

/-- C7: `SphericalCoordinatesTransform` is total: for every input it
returns `(dist, theta, phi)` with `dist = sqrt(x^2+y^2+z^2)`,
`theta = acos(z / max(dist, 1e-7))` and `phi = atan2(y, x)`; the
inclination's denominator is clamped to at least `1e-7`, hence nonzero —
in particular no division by zero arises when the input point is the
origin, where the denominator is exactly `1e-7` (using that the machine
sqrt satisfies `sqrt 0 = 0`). -/
theorem sphericalCoordinatesTransform_total (sqrtf acosf : ℚ → ℚ)
    (atan2f : ℚ → ℚ → ℚ) (p : ℚ × ℚ × ℚ) :
    (1 / 10 ^ 7 ≤ sphericalDenominator sqrtf p ∧
     sphericalDenominator sqrtf p ≠ 0) ∧
    SphericalCoordinatesTransform sqrtf acosf atan2f p =
      (sqrtf (p.1 ^ 2 + p.2.1 ^ 2 + p.2.2 ^ 2),
       acosf (p.2.2 / sphericalDenominator sqrtf p),
       atan2f p.2.1 p.1) ∧
    (sqrtf 0 = 0 → p = (0, 0, 0) →
      sphericalDenominator sqrtf p = 1 / 10 ^ 7) := by
  refine ⟨⟨le_max_right _ _, ?_⟩, rfl, ?_⟩
  · have h1 : (0 : ℚ) < 1 / 10 ^ 7 := by norm_num
    exact ne_of_gt (lt_of_lt_of_le h1 (le_max_right _ _))
  · intro hs hp
    subst hp
    simp only [sphericalDenominator]
    norm_num [hs]

/-- Witness for C7 at the origin with the exact zero interpretation of
the machine sqrt. -/
theorem sphericalCoordinatesTransform_total_witness :
    sphericalDenominator (fun _ => 0) ((0, 0, 0) : ℚ × ℚ × ℚ) = 1 / 10 ^ 7 :=
  (sphericalCoordinatesTransform_total (fun _ => 0) (fun _ => 0)
    (fun _ _ => 0) (0, 0, 0)).2.2 rfl rfl

/-! ### Claim C8: score masking in Decode and Inference -/

/-- C8: in both `Decode` and `Inference` the returned per-class box
scores equal the NMS output scores multiplied elementwise by the validity
mask — so every slot whose mask entry is zero reads score exactly zero —
and `Decode`'s visualization weights equal these masked scores with every
entry below `visualization_classification_threshold` replaced by zero. -/
theorem score_masking_spec (scores mask : List ℚ) (threshold : ℚ)
    (i : Nat) (s v : ℚ)
    (hs : scores[i]? = some s) (hv : mask[i]? = some v) :
    ((DecodeScores scores mask threshold).1[i]? = some (s * v)) ∧
    ((InferenceScores scores mask)[i]? = some (s * v)) ∧
    (v = 0 → (DecodeScores scores mask threshold).1[i]? = some 0 ∧
      (InferenceScores scores mask)[i]? = some 0) ∧
    ((DecodeScores scores mask threshold).2[i]? =
      some (if s * v ≥ threshold then s * v else 0)) ∧
    (s * v < threshold →
      (DecodeScores scores mask threshold).2[i]? = some 0) := by
  have hmasked : (maskScores scores mask)[i]? = some (s * v) := by
    unfold maskScores
    rw [List.getElem?_zipWith, hs, hv]
  have hdec1 : (DecodeScores scores mask threshold).1[i]? = some (s * v) := by
    unfold DecodeScores
    exact hmasked
  have hviz : (DecodeScores scores mask threshold).2[i]? =
      some (if s * v ≥ threshold then s * v else 0) := by
    unfold DecodeScores visualizationWeights
    simp only [List.getElem?_map]
    rw [show (maskScores scores mask)[i]? = some (s * v) from hmasked]
    rfl
  refine ⟨hdec1, hmasked, ?_, hviz, ?_⟩
  · intro hv0
    subst hv0
    rw [mul_zero] at hdec1 hmasked
    exact ⟨hdec1, hmasked⟩
  · intro hlt
    rw [hviz, if_neg (not_le.mpr hlt)]

/-- Witness for C8 on concrete score/mask rows. -/
theorem score_masking_spec_witness :
    ((DecodeScores [3] [0] 1).1[0]? = some (3 * 0)) ∧
    ((InferenceScores [3] [0])[0]? = some (3 * 0)) ∧
    ((DecodeScores [3] [0] 1).1[0]? = some 0 ∧
      (InferenceScores [3] [0])[0]? = some 0) ∧
    ((DecodeScores [3] [0] 1).2[0]? = some 0) := by
  obtain ⟨h1, h2, h3, h4, h5⟩ :=
    score_masking_spec [3] [0] 1 0 3 0 rfl rfl
  exact ⟨h1, h2, h3 rfl, h5 (by norm_num)⟩

/-! ### Claim C9: per-pixel pose composition order -/

/-- C9: in the range-image-to-cartesian transform with a per-pixel pose,
each lidar point (after the extrinsics transform) is transformed first by
its per-pixel pose (rotation then translation) and only afterwards by the
world-to-vehicle transform, computed as the matrix inverse of the frame
pose — the source pipeline equals the documented-order composition
pointwise, never the opposite order. -/
theorem xyzFromRangeImage_pixelPose_order
    (points_and_poses : List ((Fin 3 → ℚ) × Matrix (Fin 4) (Fin 4) ℚ))
    (frame_pose : Matrix (Fin 4) (Fin 4) ℚ) :
    XYZFromRangeImagePixelPose points_and_poses frame_pose =
      pixelPoseThenWorldToVehicle points_and_poses frame_pose := by
  unfold XYZFromRangeImagePixelPose pixelPoseThenWorldToVehicle
  rw [List.map_map]
  rfl

/-! ### Claim C10: DecodeFinalize -/

/-- C10: called with an empty `decode_out`, `DecodeFinalize` returns
without creating the output file (the sink is unchanged); otherwise it
writes exactly one serialized record per element of `decode_out`, in
list order. -/
theorem decodeFinalize_spec {K V : Type} (decode_out : List (K × V)) :
    (decode_out = [] → DecodeFinalize decode_out = none) ∧
    (decode_out ≠ [] →
      DecodeFinalize decode_out = some (decode_out.map Prod.snd) ∧
      ∀ l, DecodeFinalize decode_out = some l →
        l.length = decode_out.length ∧
        ∀ i : Nat, l[i]? = (decode_out[i]?).map Prod.snd) := by
  constructor
  · intro h
    subst h
    rfl
  · intro h
    have hne : decode_out.isEmpty = false := by
      simpa [List.isEmpty_iff] using h
    refine ⟨by simp [DecodeFinalize, hne], ?_⟩
    intro l hl
    simp only [DecodeFinalize, hne, Bool.false_eq_true, if_false,
      Option.some.injEq] at hl
    subst hl
    exact ⟨List.length_map _ _, fun i => List.getElem?_map _ _ _⟩

/-- Witness for C10 on an empty and a one-element decode output. -/
theorem decodeFinalize_spec_witness :
    DecodeFinalize ([] : List (Nat × Nat)) = none ∧
    DecodeFinalize [((1 : Nat), (2 : Nat))] = some [2] ∧
    ([2] : List Nat).length = [((1 : Nat), (2 : Nat))].length := by
  refine ⟨(decodeFinalize_spec []).1 rfl, ?_, ?_⟩
  · exact ((decodeFinalize_spec [(1, 2)]).2 (by simp)).1
  · exact (((decodeFinalize_spec [(1, 2)]).2 (by simp)).2 [2]
      ((decodeFinalize_spec [(1, 2)]).2 (by simp)).1).1

end Lingvo
